import Mathlib

/-!
Verification of the inventory manager in `src/inventory.js`.

The core under specification is the state-synchronization and mock-network
layer: the persistent store adapter (`syncState` + `localStorage` usage),
the mock transport (`mockApi.fetch`), the repository client
(`mockApi.getAll/create/update/delete`) and the application state
reconciler (`loadItems`, `handleSubmit`, `handleEdit`, `handleDelete`).

Modelling conventions:
- JS objects parsed from JSON bodies / the stored record are modelled as
  `JsObj`, a record of optional fields (a key absent from the JSON object
  is `none`).  JS `===` on two such fields is `Option.beq`
  (`undefined === undefined` is true, strings compare by value).
- Serialized strings are modelled by inductives that record the parse
  outcome: `StoredStr.ofItems xs` is `JSON.stringify xs` (always a
  non-empty, hence truthy, string), `StoredStr.invalid s` is a stored
  string on which `JSON.parse` throws; similarly `BodyStr`.  A stored
  string that parses to JSON of a non-array shape is outside the model
  (the program itself only ever writes stringified arrays).
- `localStorage` is modelled as `Store := Option StoredStr`, threaded
  explicitly; `localStorage.getItem` returning `null` is `none`.
- A thrown JS exception is `Except.error <message>`; resolving normally is
  `Except.ok`.  An `async` function that can reject has an `Except`
  result type.
- `crypto.randomUUID()` is modelled by an explicit `freshId` argument.
- DOM reads (form field values) are explicit arguments; DOM writes
  (`renderList`, `updateFormForEdit`) are outside the core.  The
  user-visible banner (`showMessage text isError`) is returned as
  `Option Msg`.  Transport invocations and direct `localStorage.setItem`
  calls made by the reconciler are returned as a trace of `EffOp`s so
  that "no transport call / no store write" is statable.
- The fixed 150-unit latency (`setTimeout`) has no observable effect in
  this single-operation model and is not represented.
-/

/-- An item / request-body object as produced by `JSON.parse`:
each field is present (`some`) or absent (`none`). -/
structure JsObj where
  id : Option String
  name : Option String
  quantity : Option Int
deriving DecidableEq, Repr

/-- A stored string under the `inventory_items` key. -/
inductive StoredStr where
  /-- `JSON.stringify` of an item array (always a truthy string). -/
  | ofItems (xs : List JsObj)
  /-- a stored string on which `JSON.parse` throws. -/
  | invalid (s : String)
deriving DecidableEq, Repr

/-- A request-body string (`options.body`). -/
inductive BodyStr where
  /-- `JSON.stringify` of a body object (always a truthy string). -/
  | ofBody (b : JsObj)
  /-- a body string on which `JSON.parse` throws. -/
  | invalid (s : String)
deriving DecidableEq, Repr

/-- The `localStorage` slot for the well-known key (`getItem` gives `null` = `none`). -/
abbrev Store := Option StoredStr

/-- The data carried by a success envelope: an array or a single object. -/
inductive JsVal where
  | arr (xs : List JsObj)
  | obj (x : JsObj)
deriving DecidableEq, Repr

/-- Transport envelope: `⦃ok:true, data?⦄` or `⦃ok:false, error⦄`. -/
inductive Envelope where
  /-- `ok: true`; `data` is absent (`none`) for DELETE. -/
  | pass (data : Option JsVal)
  /-- `ok: false` with an error message. -/
  | fail (error : String)
deriving DecidableEq, Repr

/-- The message shown by `showMessage(text, isError)`. -/
structure Msg where
  text : String
  isError : Bool
deriving DecidableEq, Repr

/-- An observable side effect of a reconciler operation: a transport call
(`mockApi.fetch` with the given method) or a direct `localStorage.setItem`. -/
inductive EffOp where
  | transportCall (method : String)
  | storeWrite
deriving DecidableEq, Repr

/-- Application state: `state = ⦃ items, editingId ⦄` in the source. -/
structure AppState where
  items : List JsObj
  editingId : Option String
deriving DecidableEq, Repr

/-- JS truthiness of `state.editingId` (a string is falsy iff empty; `null` is falsy). -/
def jsTruthyId : Option String → Bool
  | none => false
  | some s => !s.isEmpty

/-- JS truthiness of the stored string (`stored ? ... : ...`). -/
def jsTruthyStored : StoredStr → Bool
  | .ofItems _ => true
  | .invalid s => !s.isEmpty

/-- JS truthiness of `options.body`. -/
def jsTruthyBody : BodyStr → Bool
  | .ofBody _ => true
  | .invalid s => !s.isEmpty

/-- The (modelled) message of the exception `JSON.parse` throws. -/
def jsonParseErrorMsg (s : String) : String :=
  "Unexpected token in JSON: " ++ s

/-- `JSON.parse` on the stored string. -/
def jsonParseItems : StoredStr → Except String (List JsObj)
  | .ofItems xs => .ok xs
  | .invalid s => .error (jsonParseErrorMsg s)

/-- `JSON.parse` on the request body string. -/
def jsonParseBody : BodyStr → Except String JsObj
  | .ofBody b => .ok b
  | .invalid s => .error (jsonParseErrorMsg s)

/-- JS object spread on one field: the second object's key wins when present. -/
def spreadField (old new : Option α) : Option α :=
  match new with
  | some v => some v
  | none => old

/-- `⦃ ...old, ...new ⦄` — shallow merge, fields of `new` override. -/
def mergeObj (old new : JsObj) : JsObj :=
  ⟨spreadField old.id new.id, spreadField old.name new.name,
   spreadField old.quantity new.quantity⟩

/-- `⦃ id: crypto.randomUUID(), ...body ⦄` (spreading `null` adds nothing). -/
def mkPostItem (freshId : String) (body : Option JsObj) : JsObj :=
  match body with
  | none => ⟨some freshId, none, none⟩
  | some b => mergeObj ⟨some freshId, none, none⟩ b

/-- `url.split(sep).pop()` with separator `/` — the final segment of the
request path: the characters after the last `/` (the whole string when no
`/` occurs, the empty string after a trailing `/`). -/
def splitPop (url : String) : String :=
  String.mk ((url.data.reverse.takeWhile (fun c => c != '/')).reverse)

/-- `mockApi.baseUrl`. -/
def baseUrl : String := "https://api.example.com/inventory"

/-- Placeholder object for an out-of-range index read (never reached). -/
def noObj : JsObj := ⟨none, none, none⟩

/-- The body of the `try` block of `mockApi.fetch`: read and parse the
store, dispatch on the method, write the store back.  `Except.error` is a
thrown exception (to be caught by the surrounding `catch`).  The value is
`(response, store)` where `response = none` models the `undefined` result
of an unrecognized method falling through every `if`. -/
def mockApi.fetchTry (freshId url method : String) (body : Option JsObj)
    (store : Store) : Except String (Option Envelope × Store) :=
  match (match store with
         | some ss => if jsTruthyStored ss then jsonParseItems ss else .ok []
         | none => .ok []) with
  | .error e => .error e
  | .ok items =>
    if method = "GET" then
      .ok (some (.pass (some (.arr items))), store)
    else if method = "POST" then
      let newItem := mkPostItem freshId body
      let items2 := items ++ [newItem]
      .ok (some (.pass (some (.obj newItem))), some (.ofItems items2))
    else if method = "PUT" then
      match body with
      | none =>
        -- `body.id` on `null` throws a TypeError inside the try block
        Except.error "Cannot read properties of null"
      | some b =>
        match items.findIdx? (fun i => i.id == b.id) with
        | none => Except.error "Item not found"
        | some idx =>
          let merged := mergeObj (items.getD idx noObj) b
          let items2 := items.set idx merged
          .ok (some (.pass (some (.obj merged))), some (.ofItems items2))
    else if method = "DELETE" then
      let targetId := splitPop url
      let items2 := items.filter (fun i => !(i.id == some targetId))
      .ok (some (.pass none), some (.ofItems items2))
    else
      .ok (none, store)

/-- `mockApi.fetch(url, options)`.  The method defaults to GET
(`options.method || 'GET'`), the body is parsed **before** the try block —
so a body-parse exception propagates as a rejection (`Except.error`) —
and any exception thrown inside the try block is converted by the `catch`
into a `⦃ok:false, error⦄` envelope, leaving the store untouched. -/
def mockApi.fetch (freshId url : String) (method : Option String)
    (body : Option BodyStr) (store : Store) :
    Except String (Option Envelope × Store) :=
  let m := match method with
    | some s => if s.isEmpty then "GET" else s
    | none => "GET"
  match (match body with
         | some bs =>
           if jsTruthyBody bs then (jsonParseBody bs).map some else .ok none
         | none => .ok none) with
  | .error e => .error e
  | .ok parsedBody =>
    match mockApi.fetchTry freshId url m parsedBody store with
    | .ok r => .ok r
    | .error e => .ok (some (.fail e), store)

/-- `res.error || <default>` — an empty error message falls back to the
verb-specific default. -/
def errOr (e default : String) : String :=
  if e.isEmpty then default else e

/-- `mockApi.getAll()`: GET via the transport; on `⦃ok:false⦄` throws the
envelope's message (or the default); on `⦃ok:true⦄` returns `res.data`.
The two `unreachable` branches correspond to response shapes a GET can
never produce (see `fetch_get_shape`); they model the `TypeError` that
reading `res.ok` / using a non-array `res.data` as the collection would
raise. -/
def mockApi.getAll (store : Store) : Except String (List JsObj) × Store :=
  match mockApi.fetch "" baseUrl none none store with
  | .error e => (.error e, store)
  | .ok (none, s2) => (.error "Cannot read properties of undefined", s2)
  | .ok (some (.fail e), s2) => (.error (errOr e "Failed to fetch"), s2)
  | .ok (some (.pass (some (.arr xs))), s2) => (.ok xs, s2)
  | .ok (some (.pass d), s2) => (.error ("unreachable GET data shape" ++ toString (repr d)), s2)

/-- `mockApi.create(item)`: POST with `JSON.stringify(item)` as body. -/
def mockApi.create (freshId : String) (item : JsObj) (store : Store) :
    Except String JsObj × Store :=
  match mockApi.fetch freshId baseUrl (some "POST") (some (.ofBody item)) store with
  | .error e => (.error e, store)
  | .ok (none, s2) => (.error "Cannot read properties of undefined", s2)
  | .ok (some (.fail e), s2) => (.error (errOr e "Failed to create"), s2)
  | .ok (some (.pass (some (.obj x))), s2) => (.ok x, s2)
  | .ok (some (.pass d), s2) => (.error ("unreachable POST data shape" ++ toString (repr d)), s2)

/-- `mockApi.update(item)`: PUT to `baseUrl/<item.id>` with
`JSON.stringify(item)` as body.  The path segment is the stringified id
(`undefined` when the field is absent, as JS template literals render). -/
def mockApi.update (item : JsObj) (store : Store) :
    Except String JsObj × Store :=
  let idSeg := match item.id with | some s => s | none => "undefined"
  match mockApi.fetch "" (baseUrl ++ "/" ++ idSeg) (some "PUT")
      (some (.ofBody item)) store with
  | .error e => (.error e, store)
  | .ok (none, s2) => (.error "Cannot read properties of undefined", s2)
  | .ok (some (.fail e), s2) => (.error (errOr e "Failed to update"), s2)
  | .ok (some (.pass (some (.obj x))), s2) => (.ok x, s2)
  | .ok (some (.pass d), s2) => (.error ("unreachable PUT data shape" ++ toString (repr d)), s2)

/-- `mockApi.delete(id)`: DELETE to `baseUrl/<id>`, no body, no data. -/
def mockApi.delete (id : String) (store : Store) :
    Except String Unit × Store :=
  match mockApi.fetch "" (baseUrl ++ "/" ++ id) (some "DELETE") none store with
  | .error e => (.error e, store)
  | .ok (none, s2) => (.error "Cannot read properties of undefined", s2)
  | .ok (some (.fail e), s2) => (.error (errOr e "Failed to delete"), s2)
  | .ok (some (.pass _), s2) => (.ok (), s2)

/-- `syncState()`: the store adapter's load — `JSON.parse(stored)` when a
truthy record exists (the parse is **not** guarded: `Except.error` is a
raised exception), the empty collection otherwise. -/
def syncState (store : Store) : Except String (List JsObj) :=
  match store with
  | none => .ok []
  | some ss => if jsTruthyStored ss then jsonParseItems ss else .ok []

/-- JS `String.prototype.trim`: strip whitespace from both ends. -/
def jsTrim (s : String) : String :=
  String.mk
    (((s.data.dropWhile Char.isWhitespace).reverse.dropWhile
        Char.isWhitespace).reverse)

/-- `Math.max(0, parseInt(v, 10) || 0)` — parse the raw field with JS
`parseInt(·, 10)` semantics: skip leading whitespace, optional sign, then
decimal digits; `NaN` (here `none`) when no digit follows. -/
def jsParseInt10 (s : String) : Option Int :=
  let cs := s.data.dropWhile (fun c => c.isWhitespace)
  let signed : Int × List Char :=
    match cs with
    | '-' :: rest => (-1, rest)
    | '+' :: rest => (1, rest)
    | _ => (1, cs)
  let ds := signed.2.takeWhile (fun c => c.isDigit)
  if ds.isEmpty then none
  else some (signed.1 * (ds.foldl (fun a c => a * 10 + (c.toNat - '0'.toNat)) 0 : Nat))

/-- The quantity actually submitted: `Math.max(0, parseInt(raw, 10) || 0)`
(`NaN || 0` and `0 || 0` are both `0`). -/
def coerceQty (raw : String) : Int :=
  max 0 ((jsParseInt10 raw).getD 0)

/-- `loadItems()`: `state.items = await mockApi.getAll()`, mirror to the
store, re-render; a thrown failure is caught and shown, state untouched. -/
def loadItems (st : AppState) (store : Store) :
    AppState × Store × List EffOp × Option Msg :=
  match mockApi.getAll store with
  | (.ok xs, _) =>
    (⟨xs, st.editingId⟩, some (.ofItems xs),
     [.transportCall "GET", .storeWrite], none)
  | (.error e, s2) =>
    (st, s2, [.transportCall "GET"],
     some ⟨errOr e "Failed to load items", true⟩)

/-- `handleSubmit(event)` with the form fields read out: trim the name,
coerce the quantity; reject an empty name before any call; otherwise
update (when `state.editingId` is truthy) or create, mutate memory, then
mirror memory to the store. -/
def handleSubmit (freshId nameRaw qtyRaw : String) (st : AppState)
    (store : Store) : AppState × Store × List EffOp × Option Msg :=
  let name := jsTrim nameRaw
  let quantity := coerceQty qtyRaw
  if name.isEmpty then
    (st, store, [], some ⟨"Please enter an item name.", true⟩)
  else if jsTruthyId st.editingId then
    match mockApi.update ⟨st.editingId, some name, some quantity⟩ store with
    | (.ok updated, _) =>
      let items2 := st.items.map (fun i => if i.id == updated.id then updated else i)
      (⟨items2, none⟩, some (.ofItems items2),
       [.transportCall "PUT", .storeWrite], some ⟨"Item updated.", false⟩)
    | (.error e, s2) =>
      (st, s2, [.transportCall "PUT"], some ⟨errOr e "Operation failed", true⟩)
  else
    match mockApi.create freshId ⟨none, some name, some quantity⟩ store with
    | (.ok created, _) =>
      let items2 := st.items ++ [created]
      (⟨items2, st.editingId⟩, some (.ofItems items2),
       [.transportCall "POST", .storeWrite], some ⟨"Item added.", false⟩)
    | (.error e, s2) =>
      (st, s2, [.transportCall "POST"], some ⟨errOr e "Operation failed", true⟩)

/-- `handleEdit(id)`: set the editing pointer only when the id is found in
`state.items`; otherwise return without touching state. -/
def handleEdit (id : String) (st : AppState) : AppState :=
  match st.items.find? (fun i => i.id == some id) with
  | none => st
  | some _ => ⟨st.items, some id⟩

/-- `handleDelete(id)`: behind the `confirm` gate, DELETE via the client;
on success filter the item out, mirror to the store, and force the
editing pointer back to `null` when it pointed at the deleted id; a
thrown failure is caught and shown, state untouched. -/
def handleDelete (id : String) (confirmed : Bool) (st : AppState)
    (store : Store) : AppState × Store × List EffOp × Option Msg :=
  if !confirmed then (st, store, [], none)
  else
    match mockApi.delete id store with
    | (.ok _, _) =>
      let items2 := st.items.filter (fun i => !(i.id == some id))
      let ed2 := if st.editingId == some id then none else st.editingId
      (⟨items2, ed2⟩, some (.ofItems items2),
       [.transportCall "DELETE", .storeWrite], some ⟨"Item deleted.", false⟩)
    | (.error e, s2) =>
      (st, s2, [.transportCall "DELETE"], some ⟨errOr e "Delete failed", true⟩)

/-! ### Helper lemmas -/

theorem findIdx?_append_cons {α : Type} (p : α → Bool) (pre post : List α)
    (x : α) (hpre : ∀ y ∈ pre, p y = false) (hx : p x = true) :
    (pre ++ x :: post).findIdx? p = some pre.length := by
  induction pre with
  | nil => simp [List.findIdx?_cons, hx]
  | cons a as ih =>
    have ha := hpre a (List.mem_cons_self a as)
    have ih2 := ih (fun y hy => hpre y (List.mem_cons_of_mem a hy))
    simp [List.findIdx?_cons, ha, ih2]

theorem getD_append_mid {α : Type} (pre post : List α) (x d : α) :
    (pre ++ x :: post).getD pre.length d = x := by
  induction pre with
  | nil => rfl
  | cons a as ih => simpa using ih

theorem set_append_mid {α : Type} (pre post : List α) (x m : α) :
    (pre ++ x :: post).set pre.length m = pre ++ m :: post := by
  induction pre with
  | nil => rfl
  | cons a as ih => simp [ih]

theorem findIdx?_eq_none_of {α : Type} (p : α → Bool) (l : List α)
    (h : ∀ y ∈ l, p y = false) : l.findIdx? p = none := by
  rw [List.findIdx?_eq_none_iff]
  intro x hx
  exact h x hx

/-- Reduction of the try-block on a PUT against a parseable store. -/
theorem fetchTry_put_eq (freshId url : String) (b : JsObj) (xs : List JsObj) :
    mockApi.fetchTry freshId url "PUT" (some b) (some (.ofItems xs)) =
      match xs.findIdx? (fun i => i.id == b.id) with
      | none => .error "Item not found"
      | some idx =>
        .ok (some (.pass (some (.obj (mergeObj (xs.getD idx noObj) b)))),
             some (.ofItems (xs.set idx (mergeObj (xs.getD idx noObj) b)))) := rfl

/-- The catch of `mockApi.fetch` around the try-block, on a PUT with a
stringified body. -/
theorem fetch_put_catch (freshId url : String) (b : JsObj) (store : Store) :
    mockApi.fetch freshId url (some "PUT") (some (.ofBody b)) store =
      match mockApi.fetchTry freshId url "PUT" (some b) store with
      | .ok r => .ok r
      | .error e => .ok (some (.fail e), store) := rfl

/-- A PUT whose target id occurs in the stored collection: the matching
record is replaced by the shallow merge, everything else kept in place. -/
theorem fetch_put_found (freshId url : String) (pre post : List JsObj)
    (x b : JsObj) (hpre : ∀ y ∈ pre, (y.id == b.id) = false)
    (hx : (x.id == b.id) = true) :
    mockApi.fetch freshId url (some "PUT") (some (.ofBody b))
        (some (.ofItems (pre ++ x :: post)))
      = .ok (some (.pass (some (.obj (mergeObj x b)))),
             some (.ofItems (pre ++ mergeObj x b :: post))) := by
  rw [fetch_put_catch, fetchTry_put_eq, findIdx?_append_cons _ _ _ _ hpre hx]
  dsimp only
  rw [getD_append_mid, set_append_mid]

/-- A PUT whose target id is absent from the stored collection: the thrown
`Item not found` is converted by the catch, the store is not written. -/
theorem fetch_put_absent (freshId url : String) (xs : List JsObj) (b : JsObj)
    (h : ∀ y ∈ xs, (y.id == b.id) = false) :
    mockApi.fetch freshId url (some "PUT") (some (.ofBody b))
        (some (.ofItems xs))
      = .ok (some (.fail "Item not found"), some (.ofItems xs)) := by
  rw [fetch_put_catch, fetchTry_put_eq, findIdx?_eq_none_of _ _ h]

/-- Reduction of a DELETE against a parseable store. -/
theorem fetch_delete_eq (freshId url : String) (xs : List JsObj) :
    mockApi.fetch freshId url (some "DELETE") none (some (.ofItems xs)) =
      .ok (some (.pass none),
           some (.ofItems (xs.filter (fun i => !(i.id == some (splitPop url)))))) := rfl

/-- Reduction of the client delete against a parseable store. -/
theorem delete_eq (id : String) (xs : List JsObj) :
    mockApi.delete id (some (.ofItems xs)) =
      (.ok (),
       some (.ofItems
         (xs.filter (fun i => !(i.id == some (splitPop (baseUrl ++ "/" ++ id))))))) := rfl

/-- Reduction of the client getAll against a parseable store. -/
theorem getAll_eq (xs : List JsObj) :
    mockApi.getAll (some (.ofItems xs)) = (.ok xs, some (.ofItems xs)) := rfl

/-- Against a corrupt store (a truthy string `JSON.parse` rejects), the
try-block throws the parse error whatever the method and body. -/
theorem fetchTry_corrupt (freshId url m : String) (body : Option JsObj)
    (s : String) (hs : s.isEmpty = false) :
    mockApi.fetchTry freshId url m body (some (.invalid s))
      = .error (jsonParseErrorMsg s) := by
  simp only [mockApi.fetchTry, jsTruthyStored, hs, Bool.not_false, if_true]
  rfl

/-- For the four supported methods the try-block either resolves with an
envelope or throws; it never falls through to the `undefined` response. -/
theorem fetchTry_cases (freshId url m : String) (body : Option JsObj)
    (store : Store)
    (hm : m = "GET" ∨ m = "POST" ∨ m = "PUT" ∨ m = "DELETE") :
    (∃ env s2, mockApi.fetchTry freshId url m body store = .ok (some env, s2)) ∨
    (∃ e, mockApi.fetchTry freshId url m body store = .error e) := by
  rcases store with _ | ss
  · rcases hm with rfl | rfl | rfl | rfl
    · exact .inl ⟨_, _, rfl⟩
    · exact .inl ⟨_, _, rfl⟩
    · rcases body with _ | b
      · exact .inr ⟨_, rfl⟩
      · exact .inr ⟨_, rfl⟩
    · exact .inl ⟨_, _, rfl⟩
  · rcases ss with xs | s
    · rcases hm with rfl | rfl | rfl | rfl
      · exact .inl ⟨_, _, rfl⟩
      · exact .inl ⟨_, _, rfl⟩
      · rcases body with _ | b
        · exact .inr ⟨_, rfl⟩
        · rw [fetchTry_put_eq]
          rcases h : xs.findIdx? (fun i => i.id == b.id) with _ | idx
          · rw [h]
            exact .inr ⟨_, rfl⟩
          · rw [h]
            exact .inl ⟨_, _, rfl⟩
      · exact .inl ⟨_, _, rfl⟩
    · rcases hs : s.isEmpty with _ | _
      · exact .inr ⟨_, fetchTry_corrupt freshId url m body s hs⟩
      · have hempty : s = "" := (String.isEmpty_iff s).mp hs
        subst hempty
        rcases hm with rfl | rfl | rfl | rfl
        · exact .inl ⟨_, _, rfl⟩
        · exact .inl ⟨_, _, rfl⟩
        · rcases body with _ | b
          · exact .inr ⟨_, rfl⟩
          · exact .inr ⟨_, rfl⟩
        · exact .inl ⟨_, _, rfl⟩

/-- Unfolding `mockApi.fetch` with an absent body. -/
theorem fetch_unfold_nobody (freshId url M : String) (store : Store)
    (hM : M.isEmpty = false) :
    mockApi.fetch freshId url (some M) none store =
      match mockApi.fetchTry freshId url M none store with
      | .ok r => .ok r
      | .error e => .ok (some (.fail e), store) := by
  simp only [mockApi.fetch, hM, Bool.false_eq_true, if_false]

/-- Unfolding `mockApi.fetch` with a stringified body. -/
theorem fetch_unfold_body (freshId url M : String) (b : JsObj) (store : Store)
    (hM : M.isEmpty = false) :
    mockApi.fetch freshId url (some M) (some (.ofBody b)) store =
      match mockApi.fetchTry freshId url M (some b) store with
      | .ok r => .ok r
      | .error e => .ok (some (.fail e), store) := by
  simp only [mockApi.fetch, hM, Bool.false_eq_true, if_false, jsTruthyBody,
    jsonParseBody, Except.map, if_true]

/-- Unfolding `mockApi.fetch` with an empty (falsy) body string. -/
theorem fetch_unfold_emptybody (freshId url M : String) (store : Store)
    (hM : M.isEmpty = false) :
    mockApi.fetch freshId url (some M) (some (.invalid "")) store =
      match mockApi.fetchTry freshId url M none store with
      | .ok r => .ok r
      | .error e => .ok (some (.fail e), store) := by
  simp only [mockApi.fetch, hM, Bool.false_eq_true, if_false]
  rfl

/-- The catch of `mockApi.fetch` turns any try-block outcome for a
supported verb into a resolved envelope. -/
theorem catch_envelope_of_supported (freshId url M : String)
    (pb : Option JsObj) (store : Store)
    (hm4 : M = "GET" ∨ M = "POST" ∨ M = "PUT" ∨ M = "DELETE") :
    ∃ env s2,
      ((match mockApi.fetchTry freshId url M pb store with
        | .ok r => Except.ok r
        | .error e => Except.ok (some (.fail e), store)) :
          Except String (Option Envelope × Store)) = .ok (some env, s2) := by
  rcases fetchTry_cases freshId url M pb store hm4 with ⟨env, s2, h⟩ | ⟨e, h⟩
  · rw [h]
    exact ⟨env, s2, rfl⟩
  · rw [h]
    exact ⟨.fail e, store, rfl⟩

/-! ### The claims -/

/-- C1: the claim as stated is false on the code.  First conjunct: a GET
whose `options.body` is a truthy string `JSON.parse` rejects makes
`mockApi.fetch` itself reject — the body is parsed on line 22, before the
`try` of line 24, so the raw fault escapes the transport boundary.
Second conjunct: an unrecognized verb (`PATCH`) falls through every `if`
and the call resolves to `undefined`, not to an `⦃ok, ...⦄` envelope. -/
theorem C1_raw_fault_escapes_counterexample :
    mockApi.fetch "u1" baseUrl (some "GET") (some (.invalid "oops")) none
      = .error (jsonParseErrorMsg "oops") ∧
    mockApi.fetch "u1" baseUrl (some "PATCH") none none = .ok (none, none) :=
  ⟨rfl, rfl⟩

/-- C1 (amended): for the four supported verbs (GET, POST, PUT, DELETE),
when the request body is absent or parses, the transport call always
resolves to an envelope `⦃ok:true, data?⦄` or `⦃ok:false, error⦄`; and any
exception raised inside the try block by store access/parsing is caught
and converted to `⦃ok:false, error: <message>⦄` with the store untouched.
(Exceptions from parsing the request body itself, and verbs outside these
four, are excluded: see the counterexample.) -/
theorem C1_supported_verbs_envelope (freshId url : String)
    (m : Option String) (body : Option BodyStr) (store : Store)
    (hm : m = some "GET" ∨ m = some "POST" ∨ m = some "PUT" ∨ m = some "DELETE")
    (hb : ∀ s, body = some (.invalid s) → s = "") :
    (∃ env s2, mockApi.fetch freshId url m body store = .ok (some env, s2)) ∧
    (∀ s, store = some (.invalid s) → s.isEmpty = false →
      mockApi.fetch freshId url m body store
        = .ok (some (.fail (jsonParseErrorMsg s)), store)) := by
  have hM : ∃ M : String, m = some M ∧ M.isEmpty = false ∧
      (M = "GET" ∨ M = "POST" ∨ M = "PUT" ∨ M = "DELETE") := by
    rcases hm with rfl | rfl | rfl | rfl
    · exact ⟨"GET", rfl, rfl, .inl rfl⟩
    · exact ⟨"POST", rfl, rfl, .inr (.inl rfl)⟩
    · exact ⟨"PUT", rfl, rfl, .inr (.inr (.inl rfl))⟩
    · exact ⟨"DELETE", rfl, rfl, .inr (.inr (.inr rfl))⟩
  obtain ⟨M, rfl, hMne, hM4⟩ := hM
  rcases body with _ | bs
  · constructor
    · rw [fetch_unfold_nobody freshId url M store hMne]
      exact catch_envelope_of_supported freshId url M none store hM4
    · intro s hstore hs
      subst hstore
      rw [fetch_unfold_nobody freshId url M _ hMne,
        fetchTry_corrupt freshId url M none s hs]
  · rcases bs with b | s0
    · constructor
      · rw [fetch_unfold_body freshId url M b store hMne]
        exact catch_envelope_of_supported freshId url M (some b) store hM4
      · intro s hstore hs
        subst hstore
        rw [fetch_unfold_body freshId url M b _ hMne,
          fetchTry_corrupt freshId url M (some b) s hs]
    · have h0 : s0 = "" := hb s0 rfl
      subst h0
      constructor
      · rw [fetch_unfold_emptybody freshId url M store hMne]
        exact catch_envelope_of_supported freshId url M none store hM4
      · intro s hstore hs
        subst hstore
        rw [fetch_unfold_emptybody freshId url M _ hMne,
          fetchTry_corrupt freshId url M none s hs]

/-- C1 witness: the amended theorem applied to a concrete POST over a
corrupt store. -/
theorem C1_supported_verbs_envelope_witness :
    (∃ env s2,
      mockApi.fetch "u1" baseUrl (some "POST") none (some (.invalid "zz"))
        = .ok (some env, s2)) ∧
    (∀ s, (some (.invalid "zz") : Store) = some (.invalid s) →
      s.isEmpty = false →
      mockApi.fetch "u1" baseUrl (some "POST") none (some (.invalid "zz"))
        = .ok (some (.fail (jsonParseErrorMsg s)), some (.invalid "zz"))) :=
  C1_supported_verbs_envelope "u1" baseUrl (some "POST") none
    (some (.invalid "zz")) (Or.inr (Or.inl rfl)) (fun _ h => nomatch h)

/-- C2: the claim as stated is false on the code: `syncState` parses the
stored record with no guard, so a stored value `JSON.parse` rejects makes
the load raise instead of returning the empty collection. -/
theorem C2_load_raises_counterexample :
    syncState (some (.invalid "not json"))
      = .error (jsonParseErrorMsg "not json") ∧
    syncState (some (.invalid "not json")) ≠ .ok [] :=
  ⟨rfl, fun h => Except.noConfusion h⟩

/-- C2 (amended): the load returns the empty collection when no record
exists (or the stored string is empty, hence falsy), and returns the
stored collection when it parses; but when the stored value fails to
parse, the load raises the parse error rather than returning empty. -/
theorem C2_load_amended (xs : List JsObj) (s : String)
    (hs : s.isEmpty = false) :
    syncState none = .ok [] ∧
    syncState (some (.ofItems xs)) = .ok xs ∧
    syncState (some (.invalid "")) = .ok [] ∧
    syncState (some (.invalid s)) = .error (jsonParseErrorMsg s) := by
  refine ⟨rfl, rfl, rfl, ?_⟩
  simp [syncState, jsTruthyStored, hs, jsonParseItems]

/-- C2 witness: the amended theorem at a concrete collection and a
concrete unparseable string. -/
theorem C2_load_amended_witness :
    syncState none = .ok [] ∧
    syncState (some (.ofItems [noObj])) = .ok [noObj] ∧
    syncState (some (.invalid "")) = .ok [] ∧
    syncState (some (.invalid "bad")) = .error (jsonParseErrorMsg "bad") :=
  C2_load_amended [noObj] "bad" rfl

/-- C3: a PUT whose `body.id` matches a stored item shallow-merges the
body's fields over that record: fields absent from the body are
preserved, and in particular `update(⦃id, quantity:5⦄)` on the stored item
`⦃id, name:"Bolt", quantity:1⦄` yields `⦃id, name:"Bolt", quantity:5⦄`.
The stored collection is written with only that record replaced. -/
theorem C3_put_shallow_merge (freshId url : String) (pre post : List JsObj)
    (x b : JsObj) (hpre : ∀ y ∈ pre, (y.id == b.id) = false)
    (hx : (x.id == b.id) = true) :
    (mockApi.fetch freshId url (some "PUT") (some (.ofBody b))
        (some (.ofItems (pre ++ x :: post)))
      = .ok (some (.pass (some (.obj (mergeObj x b)))),
             some (.ofItems (pre ++ mergeObj x b :: post)))) ∧
    (b.name = none → (mergeObj x b).name = x.name) ∧
    (b.quantity = none → (mergeObj x b).quantity = x.quantity) ∧
    (b.id = none → (mergeObj x b).id = x.id) ∧
    (mockApi.update ⟨some "X", none, some 5⟩
        (some (.ofItems [⟨some "X", some "Bolt", some 1⟩]))
      = (.ok ⟨some "X", some "Bolt", some 5⟩,
         some (.ofItems [⟨some "X", some "Bolt", some 5⟩]))) := by
  refine ⟨fetch_put_found freshId url pre post x b hpre hx, ?_, ?_, ?_, rfl⟩
  · intro h
    simp [mergeObj, spreadField, h]
  · intro h
    simp [mergeObj, spreadField, h]
  · intro h
    simp [mergeObj, spreadField, h]

/-- C3 witness: the theorem at the Bolt item and a quantity-only body. -/
theorem C3_put_shallow_merge_witness :
    (mockApi.fetch "u1" (baseUrl ++ "/X") (some "PUT")
        (some (.ofBody ⟨some "X", none, some 5⟩))
        (some (.ofItems ([] ++ ⟨some "X", some "Bolt", some 1⟩ :: [])))
      = .ok (some (.pass (some (.obj
            (mergeObj ⟨some "X", some "Bolt", some 1⟩ ⟨some "X", none, some 5⟩)))),
             some (.ofItems ([] ++
               mergeObj ⟨some "X", some "Bolt", some 1⟩ ⟨some "X", none, some 5⟩
                 :: [])))) ∧
    ((⟨some "X", none, some 5⟩ : JsObj).name = none →
      (mergeObj ⟨some "X", some "Bolt", some 1⟩ ⟨some "X", none, some 5⟩).name
        = (⟨some "X", some "Bolt", some 1⟩ : JsObj).name) ∧
    ((⟨some "X", none, some 5⟩ : JsObj).quantity = none →
      (mergeObj ⟨some "X", some "Bolt", some 1⟩ ⟨some "X", none, some 5⟩).quantity
        = (⟨some "X", some "Bolt", some 1⟩ : JsObj).quantity) ∧
    ((⟨some "X", none, some 5⟩ : JsObj).id = none →
      (mergeObj ⟨some "X", some "Bolt", some 1⟩ ⟨some "X", none, some 5⟩).id
        = (⟨some "X", some "Bolt", some 1⟩ : JsObj).id) ∧
    (mockApi.update ⟨some "X", none, some 5⟩
        (some (.ofItems [⟨some "X", some "Bolt", some 1⟩]))
      = (.ok ⟨some "X", some "Bolt", some 5⟩,
         some (.ofItems [⟨some "X", some "Bolt", some 5⟩]))) :=
  C3_put_shallow_merge "u1" (baseUrl ++ "/X") [] []
    ⟨some "X", some "Bolt", some 1⟩ ⟨some "X", none, some 5⟩
    (fun _ h => nomatch h) rfl

/-- C4: a DELETE whose target id (final path segment) is absent from the
stored collection resolves to a success envelope `⦃ok:true⦄` and
re-persists the collection element-wise unchanged, in the same order. -/
theorem C4_delete_absent_idempotent (freshId url : String)
    (xs : List JsObj)
    (h : ∀ x ∈ xs, (x.id == some (splitPop url)) = false) :
    mockApi.fetch freshId url (some "DELETE") none (some (.ofItems xs))
      = .ok (some (.pass none), some (.ofItems xs)) := by
  rw [fetch_delete_eq]
  have hf : xs.filter (fun i => !(i.id == some (splitPop url))) = xs := by
    refine List.filter_eq_self.mpr ?_
    intro a ha
    simp [h a ha]
  rw [hf]

/-- C4 witness: deleting the absent id `Z` from a one-item collection. -/
theorem C4_delete_absent_idempotent_witness :
    mockApi.fetch "u1" (baseUrl ++ "/Z") (some "DELETE") none
        (some (.ofItems [⟨some "X", some "Bolt", some 1⟩]))
      = .ok (some (.pass none),
             some (.ofItems [⟨some "X", some "Bolt", some 1⟩])) :=
  C4_delete_absent_idempotent "u1" (baseUrl ++ "/Z")
    [⟨some "X", some "Bolt", some 1⟩] (by decide)

/-- C5: a PUT whose `body.id` matches no stored item resolves to the
envelope `⦃ok:false, error:"Item not found"⦄` (the throw on line 39 is
converted by the catch) and the stored collection is not written. -/
theorem C5_put_not_found (freshId url : String) (xs : List JsObj)
    (b : JsObj) (h : ∀ y ∈ xs, (y.id == b.id) = false) :
    mockApi.fetch freshId url (some "PUT") (some (.ofBody b))
        (some (.ofItems xs))
      = .ok (some (.fail "Item not found"), some (.ofItems xs)) :=
  fetch_put_absent freshId url xs b h

/-- C5 witness: updating the absent id `Z` against a one-item collection. -/
theorem C5_put_not_found_witness :
    mockApi.fetch "u1" (baseUrl ++ "/Z") (some "PUT")
        (some (.ofBody ⟨some "Z", none, some 5⟩))
        (some (.ofItems [⟨some "X", some "Bolt", some 1⟩]))
      = .ok (some (.fail "Item not found"),
             some (.ofItems [⟨some "X", some "Bolt", some 1⟩])) :=
  C5_put_not_found "u1" (baseUrl ++ "/Z")
    [⟨some "X", some "Bolt", some 1⟩] ⟨some "Z", none, some 5⟩ (by decide)

/-- C6: a name that is empty after trimming is rejected before anything
else happens: state and store unchanged, effect trace empty (no transport
call, no store write), only the validation banner is shown. -/
theorem C6_submit_empty_name (freshId nameRaw qtyRaw : String)
    (st : AppState) (store : Store) (h : jsTrim nameRaw = "") :
    handleSubmit freshId nameRaw qtyRaw st store
      = (st, store, [], some ⟨"Please enter an item name.", true⟩) := by
  have h2 : (jsTrim nameRaw).isEmpty = true := by
    rw [h]
    decide
  simp [handleSubmit, h2]

/-- C6 witness: submitting a whitespace-only name over a non-trivial
state. -/
theorem C6_submit_empty_name_witness :
    handleSubmit "u1" "   " "5"
        ⟨[⟨some "X", some "Bolt", some 1⟩], some "X"⟩
        (some (.ofItems [⟨some "X", some "Bolt", some 1⟩]))
      = (⟨[⟨some "X", some "Bolt", some 1⟩], some "X"⟩,
         some (.ofItems [⟨some "X", some "Bolt", some 1⟩]), [],
         some ⟨"Please enter an item name.", true⟩) :=
  C6_submit_empty_name "u1" "   " "5"
    ⟨[⟨some "X", some "Bolt", some 1⟩], some "X"⟩
    (some (.ofItems [⟨some "X", some "Bolt", some 1⟩])) (by decide)

/-- C7: the submitted quantity is always a non-negative integer, is `0`
whenever `parseInt` yields `NaN`, and concretely `submit("Widget", -3)`
and `submit("Widget", "abc")` both store quantity `0`. -/
theorem C7_quantity_clamp :
    (∀ s : String, 0 ≤ coerceQty s) ∧
    (∀ s : String, jsParseInt10 s = none → coerceQty s = 0) ∧
    (handleSubmit "u1" "Widget" "-3" ⟨[], none⟩ none
      = (⟨[⟨some "u1", some "Widget", some 0⟩], none⟩,
         some (.ofItems [⟨some "u1", some "Widget", some 0⟩]),
         [.transportCall "POST", .storeWrite],
         some ⟨"Item added.", false⟩)) ∧
    (handleSubmit "u1" "Widget" "abc" ⟨[], none⟩ none
      = (⟨[⟨some "u1", some "Widget", some 0⟩], none⟩,
         some (.ofItems [⟨some "u1", some "Widget", some 0⟩]),
         [.transportCall "POST", .storeWrite],
         some ⟨"Item added.", false⟩)) := by
  refine ⟨?_, ?_, by decide, by decide⟩
  · intro s
    exact le_max_left 0 _
  · intro s h
    simp [coerceQty, h]

/-- C7 witness: the NaN-default clause of the theorem at the concrete
unparseable input. -/
theorem C7_quantity_clamp_witness : coerceQty "abc" = 0 :=
  C7_quantity_clamp.2.1 "abc" rfl

/-- C8: `loadItems` replaces `items` wholesale and re-persists on a
successful fetch; when the fetch through the repository client raises, the
whole prior state is kept and an error banner is surfaced. -/
theorem C8_load_all (st : AppState) (store : Store) :
    (∀ e s2, mockApi.getAll store = (.error e, s2) →
      (loadItems st store).1 = st ∧
      ∃ m, (loadItems st store).2.2.2 = some m ∧ m.isError = true) ∧
    (∀ xs s2, mockApi.getAll store = (.ok xs, s2) →
      (loadItems st store).1.items = xs ∧
      (loadItems st store).2.1 = some (.ofItems xs)) := by
  constructor
  · intro e s2 hE
    refine ⟨?_, ⟨errOr e "Failed to load items", true⟩, ?_, rfl⟩ <;>
      simp [loadItems, hE]
  · intro xs s2 hOk
    constructor <;> simp [loadItems, hOk]

/-- C8 witness: the failure clause over a corrupt store and the success
clause over a good store, at concrete states. -/
theorem C8_load_all_witness :
    ((loadItems ⟨[noObj], some "E"⟩ (some (.invalid "bad"))).1
        = ⟨[noObj], some "E"⟩ ∧
      ∃ m, (loadItems ⟨[noObj], some "E"⟩ (some (.invalid "bad"))).2.2.2
            = some m ∧ m.isError = true) ∧
    ((loadItems ⟨[], none⟩ (some (.ofItems [noObj]))).1.items = [noObj] ∧
      (loadItems ⟨[], none⟩ (some (.ofItems [noObj]))).2.1
        = some (.ofItems [noObj])) :=
  ⟨(C8_load_all ⟨[noObj], some "E"⟩ (some (.invalid "bad"))).1
      (jsonParseErrorMsg "bad") (some (.invalid "bad")) rfl,
   (C8_load_all ⟨[], none⟩ (some (.ofItems [noObj]))).2
      [noObj] (some (.ofItems [noObj])) rfl⟩

/-- C9: a (confirmed, successful) delete of the currently edited id forces
the editing pointer back to `null`; and `handleEdit` only ever sets the
pointer to an id found in `items` (and changes nothing else), returning
the state untouched when the id is absent. -/
theorem C9_editing_pointer (id : String) (st : AppState)
    (xs : List JsObj) :
    (st.editingId = some id →
      (handleDelete id true st (some (.ofItems xs))).1.editingId = none) ∧
    ((∀ x ∈ st.items, (x.id == some id) = false) → handleEdit id st = st) ∧
    (∀ x ∈ st.items, (x.id == some id) = true →
      (handleEdit id st).editingId = some id ∧
      (handleEdit id st).items = st.items) := by
  refine ⟨?_, ?_, ?_⟩
  · intro hEd
    simp [handleDelete, delete_eq, hEd]
  · intro h
    have hf : st.items.find? (fun i => i.id == some id) = none :=
      List.find?_eq_none.mpr (fun a ha => by simp [h a ha])
    simp [handleEdit, hf]
  · intro x hx hxid
    have hsome : (st.items.find? (fun i => i.id == some id)).isSome :=
      List.find?_isSome.mpr ⟨x, hx, hxid⟩
    obtain ⟨y, hy⟩ := Option.isSome_iff_exists.mp hsome
    simp [handleEdit, hy]

/-- C9 witness: edit `X`, then remove `X` — the pointer is forced back to
`null`; `handleEdit` on the absent `Z` is a no-op and on the present `X`
sets only the pointer. -/
theorem C9_editing_pointer_witness :
    ((⟨[⟨some "X", some "Bolt", some 1⟩], some "X"⟩ : AppState).editingId
        = some "X" →
      (handleDelete "X" true ⟨[⟨some "X", some "Bolt", some 1⟩], some "X"⟩
          (some (.ofItems [⟨some "X", some "Bolt", some 1⟩]))).1.editingId
        = none) ∧
    ((∀ x ∈ (⟨[⟨some "X", some "Bolt", some 1⟩], some "X"⟩ : AppState).items,
        (x.id == some "Z") = false) →
      handleEdit "Z" ⟨[⟨some "X", some "Bolt", some 1⟩], some "X"⟩
        = ⟨[⟨some "X", some "Bolt", some 1⟩], some "X"⟩) ∧
    (∀ x ∈ (⟨[⟨some "X", some "Bolt", some 1⟩], some "X"⟩ : AppState).items,
      (x.id == some "X") = true →
      (handleEdit "X" ⟨[⟨some "X", some "Bolt", some 1⟩], some "X"⟩).editingId
          = some "X" ∧
      (handleEdit "X" ⟨[⟨some "X", some "Bolt", some 1⟩], some "X"⟩).items
        = (⟨[⟨some "X", some "Bolt", some 1⟩], some "X"⟩ : AppState).items) := by
  have h1 := C9_editing_pointer "X"
      ⟨[⟨some "X", some "Bolt", some 1⟩], some "X"⟩
      [⟨some "X", some "Bolt", some 1⟩]
  have h2 := C9_editing_pointer "Z"
      ⟨[⟨some "X", some "Bolt", some 1⟩], some "X"⟩
      [⟨some "X", some "Bolt", some 1⟩]
  exact ⟨h1.1, h2.2.1, h1.2.2⟩

/-- When the body's id matched the stored record (JS `===`), the merged
record keeps that id. -/
theorem mergeObj_id_of_match (x b : JsObj) (hx : (x.id == b.id) = true) :
    (mergeObj x b).id = x.id := by
  have heq : x.id = b.id := by simpa using hx
  cases hb : b.id with
  | none => simp [mergeObj, spreadField, hb, heq]
  | some v => simp [mergeObj, spreadField, hb, heq]

/-- Client-level update against a store containing the target id. -/
theorem update_found (item : JsObj) (pre post : List JsObj) (x : JsObj)
    (hpre : ∀ y ∈ pre, (y.id == item.id) = false)
    (hx : (x.id == item.id) = true) :
    mockApi.update item (some (.ofItems (pre ++ x :: post)))
      = (.ok (mergeObj x item),
         some (.ofItems (pre ++ mergeObj x item :: post))) := by
  unfold mockApi.update
  dsimp only
  rw [fetch_put_found _ _ pre post x item hpre hx]

/-- C10: frame conditions of an in-place update.  (a) A PUT that finds its
target writes back a collection of the same length with the same ids in
the same order, touching only the matched position — the prefix and
suffix around it are re-persisted as they were.  (b) A submit in editing
state whose update succeeds maps the confirmed record over `items`,
preserving length and id order and leaving every item whose id differs
from the edited id unchanged at its position. -/
theorem C10_put_submit_frame (freshId url nameRaw qtyRaw eid : String)
    (pre post pre2 post2 : List JsObj) (x b x2 : JsObj) (st : AppState)
    (hpre : ∀ y ∈ pre, (y.id == b.id) = false)
    (hx : (x.id == b.id) = true)
    (heid : st.editingId = some eid) (heidne : eid.isEmpty = false)
    (hname : (jsTrim nameRaw).isEmpty = false)
    (hpre2 : ∀ y ∈ pre2, (y.id == some eid) = false)
    (hx2 : (x2.id == some eid) = true) :
    (mockApi.fetch freshId url (some "PUT") (some (.ofBody b))
        (some (.ofItems (pre ++ x :: post)))
      = .ok (some (.pass (some (.obj (mergeObj x b)))),
             some (.ofItems (pre ++ mergeObj x b :: post))) ∧
     (pre ++ mergeObj x b :: post).length = (pre ++ x :: post).length ∧
     (pre ++ mergeObj x b :: post).map JsObj.id
       = (pre ++ x :: post).map JsObj.id) ∧
    ((handleSubmit freshId nameRaw qtyRaw st
        (some (.ofItems (pre2 ++ x2 :: post2)))).1.items.length
        = st.items.length ∧
     (handleSubmit freshId nameRaw qtyRaw st
        (some (.ofItems (pre2 ++ x2 :: post2)))).1.items.map JsObj.id
        = st.items.map JsObj.id ∧
     ∀ j : Nat, ((st.items.getD j noObj).id == some eid) = false →
       (handleSubmit freshId nameRaw qtyRaw st
          (some (.ofItems (pre2 ++ x2 :: post2)))).1.items.getD j noObj
         = st.items.getD j noObj) := by
  constructor
  · refine ⟨fetch_put_found freshId url pre post x b hpre hx, by simp, ?_⟩
    have hid := mergeObj_id_of_match x b hx
    simp [hid]
  · -- the submitted body and the confirmed (merged) record
    have hup : mockApi.update
        ⟨some eid, some (jsTrim nameRaw), some (coerceQty qtyRaw)⟩
        (some (.ofItems (pre2 ++ x2 :: post2)))
        = (.ok (mergeObj x2
            ⟨some eid, some (jsTrim nameRaw), some (coerceQty qtyRaw)⟩),
           some (.ofItems (pre2 ++ mergeObj x2
            ⟨some eid, some (jsTrim nameRaw), some (coerceQty qtyRaw)⟩
              :: post2))) :=
      update_found _ pre2 post2 x2 hpre2 hx2
    have hres : (handleSubmit freshId nameRaw qtyRaw st
        (some (.ofItems (pre2 ++ x2 :: post2)))).1.items
        = st.items.map (fun i =>
            if i.id == (mergeObj x2
              ⟨some eid, some (jsTrim nameRaw), some (coerceQty qtyRaw)⟩).id
            then mergeObj x2
              ⟨some eid, some (jsTrim nameRaw), some (coerceQty qtyRaw)⟩
            else i) := by
      simp [handleSubmit, hname, jsTruthyId, heid, heidne, hup]
    have hmid : (mergeObj x2
        ⟨some eid, some (jsTrim nameRaw), some (coerceQty qtyRaw)⟩).id
        = some eid := rfl
    rw [hres, hmid]
    refine ⟨by simp, ?_, ?_⟩
    · rw [List.map_map]
      refine List.map_congr_left ?_
      intro a ha
      by_cases hc : (a.id == some eid) = true
      · have : a.id = some eid := by simpa using hc
        simp [hc, Function.comp, hmid, this]
      · have hc2 : (a.id == some eid) = false := by
          cases hcb : a.id == some eid
          · rfl
          · exact absurd hcb hc
        simp [hc2, Function.comp]
    · intro j hj
      rcases hjl : st.items[j]? with _ | v
      · rw [List.getD_eq_getElem?_getD, List.getD_eq_getElem?_getD,
          List.getElem?_map, hjl]
        rfl
      · have hv : st.items.getD j noObj = v := by
          rw [List.getD_eq_getElem?_getD, hjl]
          rfl
        have hvid : (v.id == some eid) = false := by
          rw [← hv]
          exact hj
        have hne : ¬ v.id = some eid := by simpa using hvid
        rw [List.getD_eq_getElem?_getD, List.getElem?_map, hjl, hv]
        simp [hne]

/-- C10 witness: the theorem applied to a two-item state editing `X`:
submitting preserves the id sequence, and the transport-level PUT writes
back only the merged record. -/
theorem C10_put_submit_frame_witness :
    (handleSubmit "u1" "Bolt" "12"
        ⟨[⟨some "X", some "Bolt", some 1⟩, ⟨some "Y", some "Nut", some 2⟩],
         some "X"⟩
        (some (.ofItems [⟨some "X", some "Bolt", some 1⟩,
                         ⟨some "Y", some "Nut", some 2⟩]))).1.items.map
        JsObj.id
      = [some "X", some "Y"] ∧
    mockApi.fetch "u1" (baseUrl ++ "/X") (some "PUT")
        (some (.ofBody ⟨some "X", none, some 5⟩))
        (some (.ofItems [⟨some "X", some "Bolt", some 1⟩]))
      = .ok (some (.pass (some (.obj ⟨some "X", some "Bolt", some 5⟩))),
             some (.ofItems [⟨some "X", some "Bolt", some 5⟩])) := by
  have h := C10_put_submit_frame "u1" (baseUrl ++ "/X") "Bolt" "12" "X"
      [] [] [] [⟨some "Y", some "Nut", some 2⟩]
      ⟨some "X", some "Bolt", some 1⟩ ⟨some "X", none, some 5⟩
      ⟨some "X", some "Bolt", some 1⟩
      ⟨[⟨some "X", some "Bolt", some 1⟩, ⟨some "Y", some "Nut", some 2⟩],
       some "X"⟩
      (fun _ hmem => nomatch hmem) (by decide) rfl (by decide) (by decide)
      (fun _ hmem => nomatch hmem) (by decide)
  exact ⟨h.2.2.1, h.1.1⟩
